import Mathlib

/-!
Verification of the callable invocation adapter in `src/aws_lambda.ts` of the
aws-bedrock Genkit plugin.  The TypeScript source is shallowly embedded:
JavaScript objects become association lists (`setKey` models property
assignment, `spread` models the `{...a, ...b}` operator), JSON values become
the inductive `Json` type, thrown exceptions become `Except Err`, and the
Lambda response stream becomes an explicit trace of transport operations.
-/

namespace AwsLambdaAdapter

/-- A JSON value as produced by `JSON.parse`.  Objects keep field order, as
JavaScript objects do; `JSON.parse` never produces duplicate keys. -/
inductive Json where
  | null
  | bool (b : Bool)
  | num (n : Int)
  | str (s : String)
  | arr (elems : List Json)
  | obj (fields : List (String × Json))
deriving Repr

/-- Left brace character as a string (used when rendering JSON). -/
def jsonLB : String := "\x7b"

/-- Right brace character as a string (used when rendering JSON). -/
def jsonRB : String := "\x7d"

/-- Escape a character inside a JSON string literal, as `JSON.stringify`
does for quotes and backslashes. -/
def escapeChar (c : Char) : String :=
  if c = '"' then "\\\"" else if c = '\\' then "\\\\" else String.singleton c

/-- Render a string as a JSON string literal. -/
def renderJsonString (s : String) : String :=
  "\"" ++ String.join (s.data.map escapeChar) ++ "\""

mutual

/-- Render a JSON value exactly as `JSON.stringify` does (no whitespace). -/
def Json.render : Json → String
  | .null => "null"
  | .bool b => if b then "true" else "false"
  | .num n => toString n
  | .str s => renderJsonString s
  | .arr elems => "[" ++ renderJsonElems elems ++ "]"
  | .obj fields => jsonLB ++ renderJsonFields fields ++ jsonRB

/-- Render the comma-separated elements of a JSON array. -/
def renderJsonElems : List Json → String
  | [] => ""
  | [x] => Json.render x
  | x :: y :: rest => Json.render x ++ "," ++ renderJsonElems (y :: rest)

/-- Render the comma-separated fields of a JSON object. -/
def renderJsonFields : List (String × Json) → String
  | [] => ""
  | [(k, v)] => renderJsonString k ++ ":" ++ Json.render v
  | (k, v) :: f :: rest =>
      renderJsonString k ++ ":" ++ Json.render v ++ "," ++
        renderJsonFields (f :: rest)

end

/-- JavaScript property assignment `o[k] = v` on an object modelled as an
ordered association list: an existing key keeps its position and gets the
new value, a new key is appended. -/
def setKey {α : Type} (o : List (String × α)) (k : String) (v : α) :
    List (String × α) :=
  match o with
  | [] => [(k, v)]
  | (k', v') :: rest =>
      if k' = k then (k, v) :: rest else (k', v') :: setKey rest k v

/-- JavaScript property read `o[k]` (first binding; objects built with
`setKey` have unique keys). -/
def getKey {α : Type} (o : List (String × α)) (k : String) : Option α :=
  match o with
  | [] => none
  | (k', v') :: rest => if k' = k then some v' else getKey rest k

/-- The last binding of a key in a list of fields (used to describe the
result of spreading a list that may carry duplicate keys). -/
def getKeyLast {α : Type} (o : List (String × α)) (k : String) : Option α :=
  match o with
  | [] => none
  | (k', v') :: rest =>
      match getKeyLast rest k with
      | some v => some v
      | none => if k' = k then some v' else none

/-- The JavaScript object spread `{...a, ...b}`: every field of `b` is
assigned, in order, on top of `a`. -/
def spread {α : Type} (a b : List (String × α)) : List (String × α) :=
  b.foldl (fun acc kv => setKey acc kv.1 kv.2) a

theorem getKey_setKey_self {α : Type} (o : List (String × α)) (k : String)
    (v : α) : getKey (setKey o k v) k = some v := by
  induction o with
  | nil => simp [setKey, getKey]
  | cons hd tl ih =>
      by_cases h : hd.1 = k
      · simp [setKey, getKey, h]
      · simp [setKey, getKey, h, ih]

theorem getKey_setKey_ne {α : Type} (o : List (String × α)) (k k' : String)
    (v : α) (h : k' ≠ k) : getKey (setKey o k' v) k = getKey o k := by
  induction o with
  | nil => simp [setKey, getKey, h]
  | cons hd tl ih =>
      by_cases h2 : hd.1 = k'
      · simp [setKey, getKey, h2, h]
      · simp only [setKey, h2, if_false]
        by_cases h3 : hd.1 = k
        · simp [getKey, h3]
        · simp [getKey, h3, ih]

theorem getKey_spread {α : Type} (b a : List (String × α)) (k : String) :
    getKey (spread a b) k =
      match getKeyLast b k with
      | some v => some v
      | none => getKey a k := by
  induction b generalizing a with
  | nil => simp [spread, getKeyLast]
  | cons hd tl ih =>
      show getKey (spread (setKey a hd.1 hd.2) tl) k = _
      rw [ih]
      cases htl : getKeyLast tl k with
      | some v => simp [getKeyLast, htl]
      | none =>
          by_cases hk : hd.1 = k
          · subst hk
            simp [getKeyLast, htl, getKey_setKey_self]
          · simp [getKeyLast, htl, hk, getKey_setKey_ne a k hd.1 hd.2 hk]

/-- A thrown JavaScript error as the adapter distinguishes them: a genkit
`UserFacingError` carries a taxonomy status code, anything else is a plain
`Error` with a message. -/
inductive Err where
  | userFacing (status : String) (message : String)
  | other (message : String)
deriving Repr, DecidableEq

/-- Modelled from the spec: the genkit library helper `getHttpStatus`
(imported from `genkit/context`, external to this repository) maps a
taxonomy status to its default HTTP status per the spec's taxonomy table;
failures without a taxonomy default to 500. -/
def statusToHttpCode (s : String) : Nat :=
  if s = "INVALID_ARGUMENT" then 400
  else if s = "UNAUTHENTICATED" then 401
  else if s = "PERMISSION_DENIED" then 403
  else if s = "NOT_FOUND" then 404
  else 500

/-- HTTP status for a thrown error (`getHttpStatus`). -/
def getHttpStatus : Err → Nat
  | .userFacing s _ => statusToHttpCode s
  | .other _ => 500

/-- The callable-protocol error document `{"error": {"status": ...,
"message": ...}}`. -/
def errorDoc (status message : String) : Json :=
  .obj [("error", .obj [("status", .str status), ("message", .str message)])]

/-- Modelled from the spec: the genkit library helper `getCallableJSON`
(external to this repository) serializes a failure into the callable error
envelope; errors without a taxonomy code are reported as `INTERNAL`. -/
def getCallableJSON : Err → Json
  | .userFacing s m => errorDoc s m
  | .other m => errorDoc "INTERNAL" m

/-- The state of a request body once transport decoding is done: absent (or
empty, which JavaScript treats as falsy), present but not valid JSON, or
present and parsing to a JSON value. -/
inductive BodyContent where
  | absent
  | malformed
  | wellFormed (j : Json)

/-- Lambda invocation context fields the adapter copies into the action
context (`functionName` etc.). -/
structure LambdaCtx where
  functionName : String
  functionVersion : String
  invokedFunctionArn : String
  memoryLimitInMB : String
  awsRequestId : String

/-- An API Gateway event as the adapter reads it: HTTP method, headers with
their original casing (only defined values), the body, and the passthrough
request metadata. -/
structure LambdaEvent where
  httpMethod : String
  headers : List (String × String)
  body : BodyContent
  requestContext : Json := .obj []
  queryStringParameters : Option Json := none
  pathParameters : Option Json := none

/-- Whether an object field list carries a key named `data` (the JavaScript
`"data" in parsed` test; arrays and primitives never pass the
`typeof parsed === "object"` guard, and `null` is falsy). -/
def Json.hasDataKey : Json → Bool
  | .obj fields => (getKey fields "data").isSome
  | _ => false

/-- The callable-protocol extraction step of `parseRequestBody`: an object
with a `data` key yields that key's value, anything else is the input
itself. -/
def extractCallableInput (j : Json) : Json :=
  match j with
  | .obj fields =>
      match getKey fields "data" with
      | some v => v
      | none => j
  | _ => j

/-- Source function `parseRequestBody`: an absent (or empty) body yields `{}`, a body that
does not parse throws `INVALID_ARGUMENT`, and a parsed body goes through
callable-protocol extraction. -/
def parseRequestBody (body : BodyContent) : Except Err Json :=
  match body with
  | .absent => .ok (.obj [])
  | .malformed =>
      .error (.userFacing "INVALID_ARGUMENT" "Invalid JSON in request body")
  | .wellFormed j => .ok (extractCallableInput j)

/-- JavaScript `a || b` on possibly-missing header values: the empty string
is falsy. -/
def jsOrString (a b : Option String) : Option String :=
  match a with
  | some s => if s = "" then b else some s
  | none => b

/-- Source function `getRequestOrigin`: `headers["origin"] || headers["Origin"]`. -/
def getRequestOrigin (event : LambdaEvent) : Option String :=
  jsOrString (getKey event.headers "origin") (getKey event.headers "Origin")

/-- CORS configuration options with their source defaults left as `none`. -/
structure CorsOptions where
  origin : Option (String ⊕ List String) := none
  methods : Option (List String) := none
  allowedHeaders : Option (List String) := none
  exposedHeaders : Option (List String) := none
  credentials : Option Bool := none
  maxAge : Option Nat := none

/-- The `cors` option of the handler: `undefined`, a boolean, or an options
object. -/
inductive CorsConfig where
  | unset
  | flag (b : Bool)
  | options (o : CorsOptions)

/-- The base response headers `buildCorsHeaders` starts from. -/
def corsBaseHeaders : List (String × String) :=
  [("Content-Type", "application/json")]

/-- The origin block of `buildCorsHeaders`: a wildcard or single-string
policy is emitted verbatim; an array policy echoes the request origin only
when that origin is truthy (non-empty) and a member of the array, and
otherwise leaves the header unset. -/
def corsOriginStep (opts : CorsOptions) (requestOrigin : Option String)
    (headers : List (String × String)) : List (String × String) :=
  match opts.origin.getD (.inl "*") with
  | .inr allowlist =>
      match requestOrigin with
      | some ro =>
          if ro ≠ "" ∧ ro ∈ allowlist then
            setKey headers "Access-Control-Allow-Origin" ro
          else headers
      | none => headers
  | .inl s => setKey headers "Access-Control-Allow-Origin" s

/-- The remaining blocks of `buildCorsHeaders`: methods, allowed headers,
exposed headers, credentials and max age, with the source defaults. -/
def corsRestSteps (opts : CorsOptions) (headers : List (String × String)) :
    List (String × String) :=
  let headers := setKey headers "Access-Control-Allow-Methods"
    (String.intercalate ", " (opts.methods.getD ["POST", "OPTIONS"]))
  let headers := setKey headers "Access-Control-Allow-Headers"
    (String.intercalate ", " (opts.allowedHeaders.getD
      ["Content-Type", "Authorization"]))
  let headers :=
    match opts.exposedHeaders with
    | some es =>
        if es.length > 0 then
          setKey headers "Access-Control-Expose-Headers"
            (String.intercalate ", " es)
        else headers
    | none => headers
  let headers :=
    if opts.credentials.getD false then
      setKey headers "Access-Control-Allow-Credentials" "true"
    else headers
  setKey headers "Access-Control-Max-Age" (toString (opts.maxAge.getD 86400))

/-- Source function `buildCorsHeaders`: `cors: false` suppresses all headers; `true` or
`undefined` uses the default options. -/
def buildCorsHeaders (corsOptions : CorsConfig)
    (requestOrigin : Option String) : List (String × String) :=
  match corsOptions with
  | .flag false => []
  | .flag true => corsRestSteps {} (corsOriginStep {} requestOrigin corsBaseHeaders)
  | .unset => corsRestSteps {} (corsOriginStep {} requestOrigin corsBaseHeaders)
  | .options o => corsRestSteps o (corsOriginStep o requestOrigin corsBaseHeaders)

/-- The origin block of the legacy adapter variant's `buildCorsHeaders`
(the second implementation shipped in this repository): like the current
one it echoes a truthy request origin that is a member of the array
policy, but a falsy or non-member request origin falls into an
`else if (origin.length > 0)` branch that emits the first configured
origin `origin[0]`; only an empty configured array leaves the header
unset. -/
def corsOriginStepLegacy (opts : CorsOptions) (requestOrigin : Option String)
    (headers : List (String × String)) : List (String × String) :=
  match opts.origin.getD (.inl "*") with
  | .inr allowlist =>
      match requestOrigin with
      | some ro =>
          if ro ≠ "" ∧ ro ∈ allowlist then
            setKey headers "Access-Control-Allow-Origin" ro
          else if 0 < allowlist.length then
            setKey headers "Access-Control-Allow-Origin" (allowlist.headD "")
          else headers
      | none =>
          if 0 < allowlist.length then
            setKey headers "Access-Control-Allow-Origin" (allowlist.headD "")
          else headers
  | .inl s => setKey headers "Access-Control-Allow-Origin" s

/-- The legacy adapter variant's `buildCorsHeaders`: identical to the
current one (same base headers and same methods / allowed headers /
exposed headers / credentials / max-age blocks) except for the array
origin policy's fallback branch. -/
def buildCorsHeadersLegacy (corsOptions : CorsConfig)
    (requestOrigin : Option String) : List (String × String) :=
  match corsOptions with
  | .flag false => []
  | .flag true =>
      corsRestSteps {} (corsOriginStepLegacy {} requestOrigin corsBaseHeaders)
  | .unset =>
      corsRestSteps {} (corsOriginStepLegacy {} requestOrigin corsBaseHeaders)
  | .options o =>
      corsRestSteps o (corsOriginStepLegacy o requestOrigin corsBaseHeaders)

/-- JavaScript `toLowerCase` on a header name (ASCII lowering, modelled
character by character). -/
def lowerString (s : String) : String :=
  String.mk (s.data.map Char.toLower)

/-- Source function `normalizeHeaders`: header names are lower-cased; a later entry under a
different casing overwrites an earlier one (last write wins). -/
def normalizeHeaders (headers : List (String × String)) :
    List (String × String) :=
  headers.foldl (fun acc kv => setKey acc (lowerString kv.1) kv.2) []

/-- The normalized request handed to context providers (`RequestData`). -/
structure RequestData where
  method : String
  headers : List (String × String)
  input : Json

/-- Source function `toRequestData`: the HTTP method, the lower-cased headers and the parsed
input. -/
def toRequestData (event : LambdaEvent) (input : Json) : RequestData :=
  { method := event.httpMethod
    headers := normalizeHeaders event.headers
    input := input }

/-- An action context is an open-ended object of string keys. -/
def Ctx : Type := List (String × Json)

/-- A context provider: derives a context from the request or throws. -/
def Provider : Type := RequestData → Except Err Ctx

/-- The transport-derived metadata object stored under the `lambda` key of
the action context. -/
def lambdaMetadata (event : LambdaEvent) (ctx : LambdaCtx) : Json :=
  .obj
    [("event", .obj
       [("requestContext", event.requestContext),
        ("headers", .obj (event.headers.map (fun kv => (kv.1, .str kv.2)))),
        ("queryStringParameters", event.queryStringParameters.getD .null),
        ("pathParameters", event.pathParameters.getD .null)]),
     ("context", .obj
       [("functionName", .str ctx.functionName),
        ("functionVersion", .str ctx.functionVersion),
        ("invokedFunctionArn", .str ctx.invokedFunctionArn),
        ("memoryLimitInMB", .str ctx.memoryLimitInMB),
        ("awsRequestId", .str ctx.awsRequestId)])]

/-- The `lambdaActionContext` object built by the handler: a context whose
single entry is the transport-derived `lambda` metadata. -/
def lambdaActionContext (event : LambdaEvent) (ctx : LambdaCtx) : Ctx :=
  [("lambda", lambdaMetadata event ctx)]

/-- The action context passed to the flow: the Lambda base context alone
when no provider is configured, otherwise
`{...lambdaActionContext, ...providerContext}`. -/
def computeActionContext (base : Ctx) (providerContext : Option Ctx) : Ctx :=
  match providerContext with
  | none => base
  | some pc => spread base pc

/-- The `onError` option's return value. -/
structure CustomErrorResp where
  statusCode : Nat
  message : String

/-- Handler options: CORS config, optional context provider, optional custom
error handler (which may itself throw, hence `Except`). -/
structure LambdaOptions where
  cors : CorsConfig := .unset
  contextProvider : Option Provider := none
  onError : Option (Err → Except Err CustomErrorResp) := none

/-- A model of the wrapped flow: `run` for buffered execution and `stream`
for streaming execution. -/
structure StreamBehavior where
  chunks : List Json
  outcome : Except Err Json

/-- The flow capability as the adapter uses it: `flow.run` resolves to a
result or rejects; `flow.stream` yields some chunks and then either a final
result or a failure raised by the chunk sequence or the output promise. -/
structure FlowModel where
  run : Json → Ctx → Except Err Json
  stream : Json → Ctx → StreamBehavior

/-- A buffered API Gateway response. -/
structure LambdaResponse where
  statusCode : Nat
  headers : List (String × String)
  body : String
deriving Repr, DecidableEq

/-- What the buffered handler's promise does: resolve with a response, or
reject with an exception that escaped the handler uncaught. -/
inductive HandlerOutcome where
  | response (r : LambdaResponse)
  | escaped (e : Err)
deriving Repr, DecidableEq

/-- The catch block of the buffered handler.  A configured `onError` runs
first and its output is wrapped with status fixed to `INTERNAL`; but the
`onError` call itself is not inside any try, so an exception it throws
escapes the handler.  Without `onError` the genkit callable mapping is
used. -/
def errorToResponse (opts : LambdaOptions)
    (corsHeaders : List (String × String)) (e : Err) : HandlerOutcome :=
  match opts.onError with
  | some customHandler =>
      match customHandler e with
      | .ok custom =>
          .response
            { statusCode := custom.statusCode
              headers := corsHeaders
              body := (errorDoc "INTERNAL" custom.message).render }
      | .error e2 => .escaped e2
  | none =>
      .response
        { statusCode := getHttpStatus e
          headers := corsHeaders
          body := (getCallableJSON e).render }

/-- The buffered handler produced by `onCallGenkit`, together with a flag
recording whether `flow.run` was invoked. -/
def handler (opts : LambdaOptions) (flow : FlowModel) (event : LambdaEvent)
    (lambdaCtx : LambdaCtx) : HandlerOutcome × Bool :=
  let corsHeaders := buildCorsHeaders opts.cors (getRequestOrigin event)
  if event.httpMethod = "OPTIONS" then
    (.response { statusCode := 204, headers := corsHeaders, body := "" },
     false)
  else
    match parseRequestBody event.body with
    | .error e => (errorToResponse opts corsHeaders e, false)
    | .ok input =>
        let base := lambdaActionContext event lambdaCtx
        match (match opts.contextProvider with
               | some provider =>
                   (provider (toRequestData event input)).map some
               | none => .ok none) with
        | .error e => (errorToResponse opts corsHeaders e, false)
        | .ok providerContext =>
            let actionContext := computeActionContext base providerContext
            match flow.run input actionContext with
            | .error e => (errorToResponse opts corsHeaders e, true)
            | .ok result =>
                (.response
                  { statusCode := 200
                    headers := corsHeaders
                    body := (Json.obj [("result", result)]).render },
                 true)

/-- An operation performed on the Lambda response stream:
`HttpResponseStream.from` applying status/header metadata, a `write`, or
`end`. -/
inductive StreamOp where
  | metadataOp (statusCode : Nat) (headers : List (String × String))
  | writeOp (s : String)
  | endOp
deriving Repr, DecidableEq

/-- An SSE event line `data: <payload>\n\n`. -/
def sseEvent (payload : Json) : String :=
  "data: " ++ payload.render ++ "\n\n"

/-- Whether a character list starts with the given pattern. -/
def charsStartWith : List Char → List Char → Bool
  | _, [] => true
  | [], _ :: _ => false
  | c :: cs, p :: ps => c == p && charsStartWith cs ps

/-- Whether a character list contains the given pattern as a contiguous
run. -/
def charsContain (s pat : List Char) : Bool :=
  match s with
  | [] => pat.isEmpty
  | _ :: rest => charsStartWith s pat || charsContain rest pat

/-- Whether a string contains the given pattern (JavaScript
`String.prototype.includes`). -/
def containsSubstring (s pat : String) : Bool :=
  charsContain s.data pat.data

/-- The `Accept` header of the streaming request:
`headers["accept"] || headers["Accept"] || ""`. -/
def acceptHeaderOf (event : LambdaEvent) : String :=
  (jsOrString (getKey event.headers "accept")
    (getKey event.headers "Accept")).getD ""

/-- The catch block of the streaming handler: it wraps the response stream
again with a freshly computed status code and writes the plain JSON error
document (no SSE framing), then ends the stream; a throwing `onError`
escapes with nothing written. -/
def streamErrorOps (opts : LambdaOptions)
    (corsHeaders : List (String × String)) (e : Err) :
    List StreamOp × Option Err :=
  match opts.onError with
  | some customHandler =>
      match customHandler e with
      | .ok custom =>
          ([.metadataOp custom.statusCode corsHeaders,
            .writeOp (errorDoc "INTERNAL" custom.message).render,
            .endOp], none)
      | .error e2 => ([], some e2)
  | none =>
      ([.metadataOp (getHttpStatus e) corsHeaders,
        .writeOp (getCallableJSON e).render,
        .endOp], none)

/-- The streaming handler produced by `onCallGenkit` with `streaming: true`,
as the trace of stream operations it performs plus the exception that
escaped it, if any.  (The source reads the method from
`event.requestContext.http.method`, modelled here by the event's
`httpMethod` field.) -/
def streamingHandler (opts : LambdaOptions) (flow : FlowModel)
    (event : LambdaEvent) (lambdaCtx : LambdaCtx) :
    List StreamOp × Option Err :=
  let corsHeaders := buildCorsHeaders opts.cors (getRequestOrigin event)
  if event.httpMethod = "OPTIONS" then
    ([.metadataOp 204 corsHeaders, .endOp], none)
  else
    match parseRequestBody event.body with
    | .error e => streamErrorOps opts corsHeaders e
    | .ok input =>
        let base := lambdaActionContext event lambdaCtx
        match (match opts.contextProvider with
               | some provider =>
                   (provider (toRequestData event input)).map some
               | none => .ok none) with
        | .error e => streamErrorOps opts corsHeaders e
        | .ok providerContext =>
            let actionContext := computeActionContext base providerContext
            if containsSubstring (acceptHeaderOf event) "text/event-stream"
            then
              let sseHeaders := spread corsHeaders
                [("Content-Type", "text/event-stream"),
                 ("Cache-Control", "no-cache"),
                 ("Connection", "keep-alive")]
              let behavior := flow.stream input actionContext
              let chunkOps := behavior.chunks.map
                (fun c => StreamOp.writeOp (sseEvent (.obj [("message", c)])))
              match behavior.outcome with
              | .ok result =>
                  (.metadataOp 200 sseHeaders :: chunkOps ++
                    [.writeOp (sseEvent (.obj [("result", result)])), .endOp],
                   none)
              | .error e =>
                  let (errOps, escaped) := streamErrorOps opts corsHeaders e
                  (.metadataOp 200 sseHeaders :: chunkOps ++ errOps, escaped)
            else
              match flow.run input actionContext with
              | .ok result =>
                  ([.metadataOp 200 corsHeaders,
                    .writeOp (Json.obj [("result", result)]).render,
                    .endOp], none)
              | .error e => streamErrorOps opts corsHeaders e

/-- The `Unauthenticated` error raised for an absent (or empty, hence falsy)
required header. -/
def missingHeaderErr (headerName : String) : Err :=
  .userFacing "UNAUTHENTICATED" ("Missing required header: " ++ headerName)

/-- Source function `requireHeader`: the named header must be present (and truthy), and
equal to `expectedValue` when one is given. -/
def requireHeader (headerName : String) (expectedValue : Option String) :
    Provider :=
  fun request =>
    match getKey request.headers (lowerString headerName) with
    | none => .error (missingHeaderErr headerName)
    | some value =>
        if value = "" then .error (missingHeaderErr headerName)
        else
          match expectedValue with
          | some expected =>
              if value ≠ expected then
                .error (.userFacing "PERMISSION_DENIED"
                  ("Invalid value for header: " ++ headerName))
              else .ok []
          | none => .ok []

/-- The second argument of `requireApiKey`: a literal expected value or a
validator callback (which returns nothing or throws). -/
inductive ApiKeyCheck where
  | expected (value : String)
  | validator (f : String → Except Err Unit)

/-- Source function `requireApiKey`: the named header must be present (and truthy); then
either it must equal the expected literal, or the validator callback runs
on it; on success the context is `{auth: {apiKey}}`. -/
def requireApiKey (headerName : String) (check : ApiKeyCheck) : Provider :=
  fun request =>
    match getKey request.headers (lowerString headerName) with
    | none => .error (missingHeaderErr headerName)
    | some apiKey =>
        if apiKey = "" then .error (missingHeaderErr headerName)
        else
          match check with
          | .expected v =>
              if apiKey ≠ v then
                .error (.userFacing "PERMISSION_DENIED" "Invalid API key")
              else .ok [("auth", .obj [("apiKey", .str apiKey)])]
          | .validator f =>
              match f apiKey with
              | .error e => .error e
              | .ok _ => .ok [("auth", .obj [("apiKey", .str apiKey)])]

/-- Source function `allowAll`: always succeeds with an empty context. -/
def allowAll : Provider := fun _ => .ok []

/-- The loop body of `allOf`: run each provider in order, failing fast and
merging successful contexts left to right with object spread. -/
def allOfGo (providers : List Provider) (request : RequestData)
    (merged : Ctx) : Except Err Ctx :=
  match providers with
  | [] => .ok merged
  | p :: rest =>
      match p request with
      | .error e => .error e
      | .ok c => allOfGo rest request (spread merged c)

/-- Source function `allOf`: all providers must succeed; contexts merge left to right. -/
def allOf (providers : List Provider) : Provider :=
  fun request => allOfGo providers request []

/-- How many providers the `allOf` loop invokes on a request (observation
function for the short-circuit behavior; providers are pure in this
model). -/
def allOfExecuted (providers : List Provider) (request : RequestData) : Nat :=
  match providers with
  | [] => 0
  | p :: rest =>
      match p request with
      | .error _ => 1
      | .ok _ => 1 + allOfExecuted rest request

/-- The loop body of `anyOf`: return the first success, remember the last
error, and after an all-fail loop throw the last error, or a fresh
`UNAUTHENTICATED` error when there was none. -/
def anyOfGo (providers : List Provider) (request : RequestData)
    (lastError : Option Err) : Except Err Ctx :=
  match providers with
  | [] =>
      .error
        (match lastError with
         | some e => e
         | none => .userFacing "UNAUTHENTICATED" "Unauthorized")
  | p :: rest =>
      match p request with
      | .ok c => .ok c
      | .error e => anyOfGo rest request (some e)

/-- Source function `anyOf`: first success wins; if all fail, the last error is thrown. -/
def anyOf (providers : List Provider) : Provider :=
  fun request => anyOfGo providers request none

/-- How many providers the `anyOf` loop invokes on a request (observation
function for the short-circuit behavior). -/
def anyOfExecuted (providers : List Provider) (request : RequestData) : Nat :=
  match providers with
  | [] => 0
  | p :: rest =>
      match p request with
      | .ok _ => 1
      | .error _ => 1 + anyOfExecuted rest request

theorem allOfGo_failfast (request : RequestData) (p : Provider)
    (ps₂ : List Provider) (e : Err) (hp : p request = .error e) :
    ∀ (ps₁ : List Provider) (merged : Ctx),
      (∀ q ∈ ps₁, ∃ c, q request = .ok c) →
      allOfGo (ps₁ ++ p :: ps₂) request merged = .error e := by
  intro ps₁
  induction ps₁ with
  | nil =>
      intro merged _
      simp [allOfGo, hp]
  | cons q qs ih =>
      intro merged hall
      obtain ⟨c, hc⟩ := hall q (by simp)
      have hrest : ∀ r ∈ qs, ∃ c', r request = .ok c' := by
        intro r hr
        exact hall r (by simp [hr])
      simp only [List.cons_append, allOfGo, hc]
      exact ih _ hrest

theorem allOfGo_all_ok (request : RequestData) :
    ∀ (ps : List Provider) (cs : List Ctx),
      List.Forall₂ (fun q c => q request = .ok c) ps cs →
      ∀ merged, allOfGo ps request merged = .ok (cs.foldl spread merged) := by
  intro ps cs h
  induction h with
  | nil =>
      intro merged
      simp [allOfGo]
  | cons hqc _ ih =>
      intro merged
      simp only [allOfGo, hqc, List.foldl_cons]
      exact ih _

theorem allOfExecuted_failfast (request : RequestData) (p : Provider)
    (ps₂ : List Provider) (e : Err) (hp : p request = .error e) :
    ∀ ps₁ : List Provider, (∀ q ∈ ps₁, ∃ c, q request = .ok c) →
      allOfExecuted (ps₁ ++ p :: ps₂) request = ps₁.length + 1 := by
  intro ps₁
  induction ps₁ with
  | nil =>
      intro _
      simp [allOfExecuted, hp]
  | cons q qs ih =>
      intro hall
      obtain ⟨c, hc⟩ := hall q (by simp)
      have hrest : ∀ r ∈ qs, ∃ c', r request = .ok c' := by
        intro r hr
        exact hall r (by simp [hr])
      have hih := ih hrest
      simp only [List.cons_append, allOfExecuted, hc, List.length_cons,
        List.append_eq]
      rw [hih]
      omega

theorem allOfExecuted_all_ok (request : RequestData) :
    ∀ (ps : List Provider) (cs : List Ctx),
      List.Forall₂ (fun q c => q request = .ok c) ps cs →
      allOfExecuted ps request = ps.length := by
  intro ps cs h
  induction h with
  | nil => simp [allOfExecuted]
  | cons hqc _ ih =>
      simp only [allOfExecuted, hqc, ih, List.length_cons]
      omega

theorem anyOfGo_first_success (request : RequestData) (p : Provider)
    (ps₂ : List Provider) (c : Ctx) (hp : p request = .ok c) :
    ∀ (ps₁ : List Provider) (lastError : Option Err),
      (∀ q ∈ ps₁, ∃ e, q request = .error e) →
      anyOfGo (ps₁ ++ p :: ps₂) request lastError = .ok c := by
  intro ps₁
  induction ps₁ with
  | nil =>
      intro lastError _
      simp [anyOfGo, hp]
  | cons q qs ih =>
      intro lastError hall
      obtain ⟨e, he⟩ := hall q (by simp)
      have hrest : ∀ r ∈ qs, ∃ e', r request = .error e' := by
        intro r hr
        exact hall r (by simp [hr])
      simp only [List.cons_append, anyOfGo, he]
      exact ih _ hrest

theorem anyOfGo_all_fail (request : RequestData) (p : Provider) (e : Err)
    (hp : p request = .error e) :
    ∀ (ps : List Provider) (lastError : Option Err),
      (∀ q ∈ ps, ∃ e', q request = .error e') →
      anyOfGo (ps ++ [p]) request lastError = .error e := by
  intro ps
  induction ps with
  | nil =>
      intro lastError _
      simp [anyOfGo, hp]
  | cons q qs ih =>
      intro lastError hall
      obtain ⟨e', he⟩ := hall q (by simp)
      have hrest : ∀ r ∈ qs, ∃ e'', r request = .error e'' := by
        intro r hr
        exact hall r (by simp [hr])
      simp only [List.cons_append, anyOfGo, he]
      exact ih _ hrest

theorem anyOfExecuted_first_success (request : RequestData) (p : Provider)
    (ps₂ : List Provider) (c : Ctx) (hp : p request = .ok c) :
    ∀ ps₁ : List Provider, (∀ q ∈ ps₁, ∃ e, q request = .error e) →
      anyOfExecuted (ps₁ ++ p :: ps₂) request = ps₁.length + 1 := by
  intro ps₁
  induction ps₁ with
  | nil =>
      intro _
      simp [anyOfExecuted, hp]
  | cons q qs ih =>
      intro hall
      obtain ⟨e, he⟩ := hall q (by simp)
      have hrest : ∀ r ∈ qs, ∃ e', r request = .error e' := by
        intro r hr
        exact hall r (by simp [hr])
      have hih := ih hrest
      simp only [List.cons_append, anyOfExecuted, he, List.length_cons,
        List.append_eq]
      rw [hih]
      omega

theorem getKey_corsRestSteps (o : CorsOptions) (h : List (String × String)) :
    getKey (corsRestSteps o h) "Access-Control-Allow-Origin" =
    getKey h "Access-Control-Allow-Origin" := by
  unfold corsRestSteps
  rw [getKey_setKey_ne _ _ _ _ (by decide)]
  have hcred :
      ∀ hs : List (String × String),
        getKey
          (if o.credentials.getD false then
            setKey hs "Access-Control-Allow-Credentials" "true"
          else hs) "Access-Control-Allow-Origin" =
        getKey hs "Access-Control-Allow-Origin" := by
    intro hs
    by_cases hc : o.credentials.getD false
    · rw [if_pos hc, getKey_setKey_ne _ _ _ _ (by decide)]
    · rw [if_neg hc]
  rw [hcred]
  have hexp :
      ∀ hs : List (String × String),
        getKey
          (match o.exposedHeaders with
           | some es =>
               if es.length > 0 then
                 setKey hs "Access-Control-Expose-Headers"
                   (String.intercalate ", " es)
               else hs
           | none => hs) "Access-Control-Allow-Origin" =
        getKey hs "Access-Control-Allow-Origin" := by
    intro hs
    cases hes : o.exposedHeaders with
    | none => rfl
    | some es =>
        by_cases hlen : es.length > 0
        · simp only [hlen, if_pos]
          rw [getKey_setKey_ne _ _ _ _ (by decide)]
        · simp [hlen]
  rw [hexp]
  rw [getKey_setKey_ne _ _ _ _ (by decide)]
  rw [getKey_setKey_ne _ _ _ _ (by decide)]

/-- C9: the provider returned by `anyOf` applied to zero providers fails on
every request with an `UNAUTHENTICATED` error carrying the message
`Unauthorized`, rather than succeeding with an empty context. -/
theorem anyOf_empty_rejects (request : RequestData) :
    anyOf [] request =
      .error (.userFacing "UNAUTHENTICATED" "Unauthorized") := rfl

/-- C4: `anyOf` runs providers in order; the first success short-circuits
(only the failing prefix and the succeeding provider execute) and its
context is returned; when every provider fails, the composed provider
fails with the last provider's error. -/
theorem anyOf_first_success_last_error (request : RequestData) :
    (∀ (ps₁ : List Provider) (p : Provider) (ps₂ : List Provider) (c : Ctx),
      (∀ q ∈ ps₁, ∃ e, q request = .error e) → p request = .ok c →
      anyOf (ps₁ ++ p :: ps₂) request = .ok c ∧
      anyOfExecuted (ps₁ ++ p :: ps₂) request = ps₁.length + 1) ∧
    (∀ (ps : List Provider) (p : Provider) (e : Err),
      (∀ q ∈ ps, ∃ e', q request = .error e') → p request = .error e →
      anyOf (ps ++ [p]) request = .error e) := by
  refine ⟨fun ps₁ p ps₂ c hfail hp => ⟨?_, ?_⟩, fun ps p e hfail hp => ?_⟩
  · exact anyOfGo_first_success request p ps₂ c hp ps₁ none hfail
  · exact anyOfExecuted_first_success request p ps₂ c hp ps₁ hfail
  · exact anyOfGo_all_fail request p e hp ps none hfail

/-- Witness for C4 at a concrete input: with `p₁` failing and `p₂`
succeeding the pipeline returns `p₂`'s context after running exactly the
two of them and not the third; with both failing the reported error is
`p₂`'s, not `p₁`'s. -/
theorem anyOf_first_success_last_error_witness :
    (anyOf
        [fun _ => .error (.userFacing "UNAUTHENTICATED" "no key"),
         fun _ => .ok [("auth", Json.str "ok")],
         fun _ => .ok [("auth", Json.str "unreached")]]
        { method := "POST", headers := [], input := .null } =
      .ok [("auth", Json.str "ok")] ∧
     anyOfExecuted
        [fun _ => .error (.userFacing "UNAUTHENTICATED" "no key"),
         fun _ => .ok [("auth", Json.str "ok")],
         fun _ => .ok [("auth", Json.str "unreached")]]
        { method := "POST", headers := [], input := .null } = 2) ∧
    anyOf
        [fun _ => .error (.userFacing "UNAUTHENTICATED" "first"),
         fun _ => .error (.userFacing "PERMISSION_DENIED" "last")]
        { method := "POST", headers := [], input := .null } =
      .error (.userFacing "PERMISSION_DENIED" "last") := by
  constructor
  · exact
      (anyOf_first_success_last_error
        { method := "POST", headers := [], input := .null }).1
        [fun _ => .error (.userFacing "UNAUTHENTICATED" "no key")]
        (fun _ => .ok [("auth", Json.str "ok")])
        [fun _ => .ok [("auth", Json.str "unreached")]]
        [("auth", Json.str "ok")]
        (by
          intro q hq
          simp only [List.mem_singleton] at hq
          exact ⟨.userFacing "UNAUTHENTICATED" "no key", by rw [hq]⟩)
        rfl
  · exact
      (anyOf_first_success_last_error
        { method := "POST", headers := [], input := .null }).2
        [fun _ => .error (.userFacing "UNAUTHENTICATED" "first")]
        (fun _ => .error (.userFacing "PERMISSION_DENIED" "last"))
        (.userFacing "PERMISSION_DENIED" "last")
        (by
          intro q hq
          simp only [List.mem_singleton] at hq
          exact ⟨.userFacing "UNAUTHENTICATED" "first", by rw [hq]⟩)
        rfl

/-- C7: `allOf` runs providers in order; the first failure short-circuits
(only the succeeding prefix and the failing provider execute) and its
error is returned; when all providers succeed, all execute and the
resulting context is the left-to-right spread of their contexts, so
contexts `{x:1}` and `{x:2}` merge to `{x:2}`. -/
theorem allOf_order_failfast_merge (request : RequestData) :
    (∀ (ps₁ : List Provider) (p : Provider) (ps₂ : List Provider) (e : Err),
      (∀ q ∈ ps₁, ∃ c, q request = .ok c) → p request = .error e →
      allOf (ps₁ ++ p :: ps₂) request = .error e ∧
      allOfExecuted (ps₁ ++ p :: ps₂) request = ps₁.length + 1) ∧
    (∀ (ps : List Provider) (cs : List Ctx),
      List.Forall₂ (fun q c => q request = .ok c) ps cs →
      allOf ps request = .ok (cs.foldl spread []) ∧
      allOfExecuted ps request = ps.length) ∧
    (∀ pa pb : Provider,
      pa request = .ok [("x", Json.num 1)] →
      pb request = .ok [("x", Json.num 2)] →
      allOf [pa, pb] request = .ok [("x", Json.num 2)]) := by
  refine
    ⟨fun ps₁ p ps₂ e hok hp => ⟨?_, ?_⟩,
     fun ps cs h => ⟨?_, ?_⟩,
     fun pa pb ha hb => ?_⟩
  · exact allOfGo_failfast request p ps₂ e hp ps₁ [] hok
  · exact allOfExecuted_failfast request p ps₂ e hp ps₁ hok
  · exact allOfGo_all_ok request ps cs h []
  · exact allOfExecuted_all_ok request ps cs h
  · have h :=
      allOfGo_all_ok request [pa, pb]
        [[("x", Json.num 1)], [("x", Json.num 2)]]
        (by exact .cons ha (.cons hb .nil)) []
    simpa [spread, setKey] using h

/-- Witness for C7 at a concrete input: the first provider succeeds, the
second fails, the third never runs, and the pipeline reports the second's
error; and the `{x:1}` / `{x:2}` contexts merge to `{x:2}`. -/
theorem allOf_order_failfast_merge_witness :
    (allOf
        [fun _ => .ok [("a", Json.num 1)],
         fun _ => .error (.userFacing "PERMISSION_DENIED" "bad key"),
         fun _ => .ok [("b", Json.num 2)]]
        { method := "POST", headers := [], input := .null } =
      .error (.userFacing "PERMISSION_DENIED" "bad key") ∧
     allOfExecuted
        [fun _ => .ok [("a", Json.num 1)],
         fun _ => .error (.userFacing "PERMISSION_DENIED" "bad key"),
         fun _ => .ok [("b", Json.num 2)]]
        { method := "POST", headers := [], input := .null } = 2) ∧
    allOf
        [fun _ => .ok [("x", Json.num 1)],
         fun _ => .ok [("x", Json.num 2)]]
        { method := "POST", headers := [], input := .null } =
      .ok [("x", Json.num 2)] := by
  constructor
  · exact
      (allOf_order_failfast_merge
        { method := "POST", headers := [], input := .null }).1
        [fun _ => .ok [("a", Json.num 1)]]
        (fun _ => .error (.userFacing "PERMISSION_DENIED" "bad key"))
        [fun _ => .ok [("b", Json.num 2)]]
        (.userFacing "PERMISSION_DENIED" "bad key")
        (by
          intro q hq
          simp only [List.mem_singleton] at hq
          exact ⟨[("a", Json.num 1)], by rw [hq]⟩)
        rfl
  · exact
      (allOf_order_failfast_merge
        { method := "POST", headers := [], input := .null }).2.2
        (fun _ => .ok [("x", Json.num 1)])
        (fun _ => .ok [("x", Json.num 2)])
        rfl rfl

/-- C10: for `requireHeader` and `requireApiKey` alike, a request whose
named header is bound to the empty string is treated exactly like one
missing the header: the result is the `UNAUTHENTICATED` missing-header
error, for every expected value and every validator (the falsy presence
check fires before either comparison). -/
theorem empty_header_treated_as_missing (headerName : String)
    (expectedValue : Option String) (check : ApiKeyCheck)
    (request : RequestData)
    (hval : getKey request.headers (lowerString headerName) = some "" ∨
            getKey request.headers (lowerString headerName) = none) :
    requireHeader headerName expectedValue request =
      .error (missingHeaderErr headerName) ∧
    requireApiKey headerName check request =
      .error (missingHeaderErr headerName) := by
  rcases hval with hval | hval <;>
    simp [requireHeader, requireApiKey, hval]

/-- Witness for C10 at a concrete input: the `x-api-key` header bound to
the empty string yields the missing-header `UNAUTHENTICATED` error from
both providers even though an expected value was configured. -/
theorem empty_header_treated_as_missing_witness :
    requireHeader "X-API-Key" (some "secret")
        { method := "POST", headers := [("x-api-key", "")], input := .null } =
      .error (missingHeaderErr "X-API-Key") ∧
    requireApiKey "X-API-Key" (.expected "secret")
        { method := "POST", headers := [("x-api-key", "")], input := .null } =
      .error (missingHeaderErr "X-API-Key") :=
  empty_header_treated_as_missing "X-API-Key" (some "secret")
    (.expected "secret")
    { method := "POST", headers := [("x-api-key", "")], input := .null }
    (Or.inl (by decide))

/-- C5: the request-body parser realizes the callable protocol.  A parsed
object carrying a `data` key yields that key's value as the input; any
other parsed value is the input itself, so a wrapped body `{data: X}` and
a direct body `X` produce the same input whenever `X` is not itself an
object with a `data` key; an absent (or empty) body yields the empty
object, not an error. -/
theorem parseRequestBody_callable_protocol :
    (∀ (fields : List (String × Json)) (v : Json),
      getKey fields "data" = some v →
      parseRequestBody (.wellFormed (.obj fields)) = .ok v) ∧
    (∀ j : Json, j.hasDataKey = false →
      parseRequestBody (.wellFormed j) = .ok j) ∧
    (∀ x : Json, x.hasDataKey = false →
      parseRequestBody (.wellFormed (.obj [("data", x)])) =
        parseRequestBody (.wellFormed x) ∧
      parseRequestBody (.wellFormed (.obj [("data", x)])) = .ok x) ∧
    parseRequestBody .absent = .ok (.obj []) := by
  have hdirect : ∀ j : Json, j.hasDataKey = false →
      parseRequestBody (.wellFormed j) = .ok j := by
    intro j hj
    cases j with
    | obj fields =>
        simp only [Json.hasDataKey] at hj
        cases hget : getKey fields "data" with
        | some v => rw [hget] at hj; simp at hj
        | none => simp [parseRequestBody, extractCallableInput, hget]
    | null => rfl
    | bool b => rfl
    | num n => rfl
    | str s => rfl
    | arr elems => rfl
  have hwrapped : ∀ x : Json,
      parseRequestBody (.wellFormed (.obj [("data", x)])) = .ok x := by
    intro x
    simp [parseRequestBody, extractCallableInput, getKey]
  refine ⟨?_, hdirect, ?_, rfl⟩
  · intro fields v hget
    simp [parseRequestBody, extractCallableInput, hget]
  · intro x hx
    exact ⟨(hwrapped x).trans (hdirect x hx).symm, hwrapped x⟩

/-- Witness for C5 at a concrete input: the wrapped body `{"data":"v"}`
and the direct body `"v"` both parse to the input `"v"`, and an object
body with a `data` key yields that key's value. -/
theorem parseRequestBody_callable_protocol_witness :
    parseRequestBody (.wellFormed (.obj [("data", .str "v")])) =
      .ok (.str "v") ∧
    parseRequestBody (.wellFormed (.str "v")) = .ok (.str "v") ∧
    parseRequestBody (.wellFormed (.obj [("data", .num 7), ("other", .null)]))
      = .ok (.num 7) :=
  ⟨(parseRequestBody_callable_protocol.2.2.1 (.str "v") rfl).2,
   parseRequestBody_callable_protocol.2.1 (.str "v") rfl,
   parseRequestBody_callable_protocol.1 [("data", .num 7), ("other", .null)]
     (.num 7) (by simp [getKey])⟩

/-- C8 counterexample, on both implementations of `buildCorsHeaders` the
claim covers.  Legacy variant: with origin set `{"https://a"}` and the
non-member request origin `https://b`, the header is not omitted — the
`else if (origin.length > 0)` fallback emits the first configured origin
`https://a`, refuting "absent or not a member → omitted entirely".
Current variant: with the empty string as a configured set member and as
request origin, membership holds yet the truthiness guard drops the
header, refuting "member → echoed verbatim". -/
theorem cors_allowlist_origin_cex :
    ("https://b" ∉ ["https://a"]) ∧
    getKey
        (buildCorsHeadersLegacy
          (.options { origin := some (.inr ["https://a"]) })
          (some "https://b"))
        "Access-Control-Allow-Origin" = some "https://a" ∧
    ("" ∈ [""]) ∧
    getKey
        (buildCorsHeaders (.options { origin := some (.inr [""]) })
          (some ""))
        "Access-Control-Allow-Origin" = none := by
  refine ⟨by decide, ?_, by simp, ?_⟩
  · show getKey
        (corsRestSteps { origin := some (.inr ["https://a"]) }
          (corsOriginStepLegacy { origin := some (.inr ["https://a"]) }
            (some "https://b") corsBaseHeaders))
        "Access-Control-Allow-Origin" = some "https://a"
    rw [getKey_corsRestSteps]
    decide
  · show getKey
        (corsRestSteps { origin := some (.inr [""]) }
          (corsOriginStep { origin := some (.inr [""]) } (some "")
            corsBaseHeaders))
        "Access-Control-Allow-Origin" = none
    rw [getKey_corsRestSteps]
    decide

/-- C8 amended, covering both implementations.  Current variant
(`buildCorsHeaders` in `aws_lambda.ts`): a non-empty request origin that
is a member of the configured set is echoed verbatim in
`Access-Control-Allow-Origin`; an absent request origin, an origin outside
the set, or the (falsy) empty-string origin leaves the header entirely
unset.  Legacy variant (`buildCorsHeadersLegacy`): a non-empty member
request origin is echoed verbatim, but an absent, empty, or non-member
origin makes the header fall back to the first configured origin whenever
the set is non-empty; only an empty configured set leaves the header
unset.  No error is raised in any case (both functions are total). -/
theorem cors_allowlist_origin_resolution (o : CorsOptions)
    (allowlist : List String) (requestOrigin : Option String)
    (horig : o.origin = some (.inr allowlist)) :
    (∀ org, requestOrigin = some org → org ≠ "" → org ∈ allowlist →
      getKey (buildCorsHeaders (.options o) requestOrigin)
        "Access-Control-Allow-Origin" = some org) ∧
    (requestOrigin = none →
      getKey (buildCorsHeaders (.options o) requestOrigin)
        "Access-Control-Allow-Origin" = none) ∧
    (∀ org, requestOrigin = some org → org = "" ∨ org ∉ allowlist →
      getKey (buildCorsHeaders (.options o) requestOrigin)
        "Access-Control-Allow-Origin" = none) ∧
    (∀ org, requestOrigin = some org → org ≠ "" → org ∈ allowlist →
      getKey (buildCorsHeadersLegacy (.options o) requestOrigin)
        "Access-Control-Allow-Origin" = some org) ∧
    (∀ hd tl, allowlist = hd :: tl →
      (requestOrigin = none ∨
       ∃ org, requestOrigin = some org ∧ (org = "" ∨ org ∉ allowlist)) →
      getKey (buildCorsHeadersLegacy (.options o) requestOrigin)
        "Access-Control-Allow-Origin" = some hd) ∧
    (allowlist = [] →
      getKey (buildCorsHeadersLegacy (.options o) requestOrigin)
        "Access-Control-Allow-Origin" = none) := by
  have hbase :
      getKey corsBaseHeaders "Access-Control-Allow-Origin" = none := by
    decide
  refine ⟨?_, ?_, ?_, ?_, ?_, ?_⟩
  · intro org hro hne hmem
    subst hro
    show getKey (corsRestSteps o (corsOriginStep o (some org)
      corsBaseHeaders)) "Access-Control-Allow-Origin" = some org
    rw [getKey_corsRestSteps]
    simp [corsOriginStep, horig, hne, hmem, getKey_setKey_self]
  · intro hro
    subst hro
    show getKey (corsRestSteps o (corsOriginStep o none corsBaseHeaders))
      "Access-Control-Allow-Origin" = none
    rw [getKey_corsRestSteps]
    simpa [corsOriginStep, horig] using hbase
  · intro org hro hbad
    subst hro
    show getKey (corsRestSteps o (corsOriginStep o (some org)
      corsBaseHeaders)) "Access-Control-Allow-Origin" = none
    rw [getKey_corsRestSteps]
    rcases hbad with hbad | hbad
    · subst hbad
      simpa [corsOriginStep, horig] using hbase
    · simpa [corsOriginStep, horig, hbad] using hbase
  · intro org hro hne hmem
    subst hro
    show getKey (corsRestSteps o (corsOriginStepLegacy o (some org)
      corsBaseHeaders)) "Access-Control-Allow-Origin" = some org
    rw [getKey_corsRestSteps]
    simp [corsOriginStepLegacy, horig, hne, hmem, getKey_setKey_self]
  · intro hd tl hcons hfalsy
    subst hcons
    rcases hfalsy with hro | ⟨org, hro, hbad⟩
    · subst hro
      show getKey (corsRestSteps o (corsOriginStepLegacy o none
        corsBaseHeaders)) "Access-Control-Allow-Origin" = some hd
      rw [getKey_corsRestSteps]
      simp [corsOriginStepLegacy, horig, getKey_setKey_self]
    · subst hro
      show getKey (corsRestSteps o (corsOriginStepLegacy o (some org)
        corsBaseHeaders)) "Access-Control-Allow-Origin" = some hd
      rw [getKey_corsRestSteps]
      rcases hbad with hbad | hbad
      · subst hbad
        simp [corsOriginStepLegacy, horig, getKey_setKey_self]
      · simp [corsOriginStepLegacy, horig, hbad, getKey_setKey_self]
  · intro hnil
    subst hnil
    cases requestOrigin with
    | none =>
        show getKey (corsRestSteps o (corsOriginStepLegacy o none
          corsBaseHeaders)) "Access-Control-Allow-Origin" = none
        rw [getKey_corsRestSteps]
        simpa [corsOriginStepLegacy, horig] using hbase
    | some org =>
        show getKey (corsRestSteps o (corsOriginStepLegacy o (some org)
          corsBaseHeaders)) "Access-Control-Allow-Origin" = none
        rw [getKey_corsRestSteps]
        simpa [corsOriginStepLegacy, horig] using hbase

/-- Witness for C8 (amended) at concrete inputs: with the origin set
`{"https://a"}`, both variants echo the member origin `https://a`; for the
non-member origin `https://b` the current variant omits the header while
the legacy variant emits the first configured origin `https://a`. -/
theorem cors_allowlist_origin_resolution_witness :
    getKey
        (buildCorsHeaders (.options { origin := some (.inr ["https://a"]) })
          (some "https://a"))
        "Access-Control-Allow-Origin" = some "https://a" ∧
    getKey
        (buildCorsHeaders (.options { origin := some (.inr ["https://a"]) })
          (some "https://b"))
        "Access-Control-Allow-Origin" = none ∧
    getKey
        (buildCorsHeadersLegacy
          (.options { origin := some (.inr ["https://a"]) })
          (some "https://a"))
        "Access-Control-Allow-Origin" = some "https://a" ∧
    getKey
        (buildCorsHeadersLegacy
          (.options { origin := some (.inr ["https://a"]) })
          (some "https://b"))
        "Access-Control-Allow-Origin" = some "https://a" :=
  ⟨(cors_allowlist_origin_resolution { origin := some (.inr ["https://a"]) }
      ["https://a"] (some "https://a") rfl).1 "https://a" rfl (by decide)
      (by simp),
   (cors_allowlist_origin_resolution { origin := some (.inr ["https://a"]) }
      ["https://a"] (some "https://b") rfl).2.2.1 "https://b" rfl
      (Or.inr (by decide)),
   (cors_allowlist_origin_resolution { origin := some (.inr ["https://a"]) }
      ["https://a"] (some "https://a") rfl).2.2.2.1 "https://a" rfl
      (by decide) (by simp),
   (cors_allowlist_origin_resolution { origin := some (.inr ["https://a"]) }
      ["https://a"] (some "https://b") rfl).2.2.2.2.1 "https://a" [] rfl
      (Or.inr ⟨"https://b", rfl, Or.inr (by decide)⟩)⟩

/-- C1 counterexample: a context provider returning its own `lambda` key
overwrites the transport-derived base layer in the merged action context,
so the final `lambda` entry is the provider's value, not the
transport-derived metadata. -/
theorem lambda_base_overwritten_cex :
    getKey
        (computeActionContext
          (lambdaActionContext
            { httpMethod := "POST", headers := [], body := .wellFormed .null }
            { functionName := "fn", functionVersion := "1",
              invokedFunctionArn := "arn", memoryLimitInMB := "128",
              awsRequestId := "req-1" })
          (some [("lambda", .str "spoofed")]))
        "lambda" = some (.str "spoofed") ∧
    lambdaMetadata
        { httpMethod := "POST", headers := [], body := .wellFormed .null }
        { functionName := "fn", functionVersion := "1",
          invokedFunctionArn := "arn", memoryLimitInMB := "128",
          awsRequestId := "req-1" } ≠ .str "spoofed" := by
  constructor
  · rfl
  · intro h
    simp [lambdaMetadata] at h

/-- C1 amended: the action context is the JavaScript spread
`{...lambdaActionContext, ...providerContext}`: the transport-derived
metadata is the base layer, and every provider key — the `lambda` key
included — takes precedence over it on conflict; the `lambda` entry equals
the transport-derived value exactly when the provider context carries no
`lambda` key; with no provider configured the context is the base layer
alone. -/
theorem actionContext_provider_precedence (event : LambdaEvent)
    (ctx : LambdaCtx) (pc : Ctx) :
    (∀ k v, getKeyLast pc k = some v →
      getKey (computeActionContext (lambdaActionContext event ctx) (some pc))
        k = some v) ∧
    (getKeyLast pc "lambda" = none →
      getKey (computeActionContext (lambdaActionContext event ctx) (some pc))
        "lambda" = some (lambdaMetadata event ctx)) ∧
    computeActionContext (lambdaActionContext event ctx) none =
      lambdaActionContext event ctx := by
  refine ⟨fun k v hv => ?_, fun hnone => ?_, rfl⟩
  · show getKey (spread (lambdaActionContext event ctx) pc) k = some v
    have h := getKey_spread pc (lambdaActionContext event ctx) k
    rw [hv] at h
    exact h
  · show getKey (spread (lambdaActionContext event ctx) pc) "lambda" = _
    have h := getKey_spread pc (lambdaActionContext event ctx) "lambda"
    rw [hnone] at h
    simpa [lambdaActionContext, getKey] using h

/-- Witness for C1 (amended) at a concrete input: a provider context
without a `lambda` key leaves the transport-derived entry in place. -/
theorem actionContext_provider_precedence_witness :
    getKey
        (computeActionContext
          (lambdaActionContext
            { httpMethod := "POST", headers := [], body := .wellFormed .null }
            { functionName := "fn", functionVersion := "1",
              invokedFunctionArn := "arn", memoryLimitInMB := "128",
              awsRequestId := "req-1" })
          (some [("auth", .str "alice")]))
        "lambda" =
      some (lambdaMetadata
        { httpMethod := "POST", headers := [], body := .wellFormed .null }
        { functionName := "fn", functionVersion := "1",
          invokedFunctionArn := "arn", memoryLimitInMB := "128",
          awsRequestId := "req-1" }) :=
  (actionContext_provider_precedence
    { httpMethod := "POST", headers := [], body := .wellFormed .null }
    { functionName := "fn", functionVersion := "1",
      invokedFunctionArn := "arn", memoryLimitInMB := "128",
      awsRequestId := "req-1" }
    [("auth", .str "alice")]).2.1 rfl

/-- C6: a request body that fails to parse as JSON never reaches the flow
(`flow.run` is not invoked, for every option set), and with the default
error mapping the buffered handler answers HTTP 400 with the
`INVALID_ARGUMENT` callable error document. -/
theorem handler_malformed_body_rejected (opts : LambdaOptions)
    (flow : FlowModel) (event : LambdaEvent) (lambdaCtx : LambdaCtx)
    (hbody : event.body = .malformed) :
    (handler opts flow event lambdaCtx).2 = false ∧
    (event.httpMethod ≠ "OPTIONS" → opts.onError = none →
      (handler opts flow event lambdaCtx).1 =
        .response
          { statusCode := 400
            headers := buildCorsHeaders opts.cors (getRequestOrigin event)
            body := (errorDoc "INVALID_ARGUMENT"
              "Invalid JSON in request body").render }) := by
  constructor
  · unfold handler
    by_cases hm : event.httpMethod = "OPTIONS"
    · rw [if_pos hm]
    · rw [if_neg hm, hbody]
      rfl
  · intro hm honerr
    unfold handler errorToResponse
    rw [if_neg hm, hbody, honerr]
    rfl

/-- Witness for C6 at a concrete input: a POST request with an unparsable
body is answered 400 / `INVALID_ARGUMENT` and the flow is not run. -/
theorem handler_malformed_body_rejected_witness :
    (handler {}
        { run := fun _ _ => .ok .null,
          stream := fun _ _ => { chunks := [], outcome := .ok .null } }
        { httpMethod := "POST", headers := [], body := .malformed }
        { functionName := "fn", functionVersion := "1",
          invokedFunctionArn := "arn", memoryLimitInMB := "128",
          awsRequestId := "req-1" }).2 = false ∧
    (handler {}
        { run := fun _ _ => .ok .null,
          stream := fun _ _ => { chunks := [], outcome := .ok .null } }
        { httpMethod := "POST", headers := [], body := .malformed }
        { functionName := "fn", functionVersion := "1",
          invokedFunctionArn := "arn", memoryLimitInMB := "128",
          awsRequestId := "req-1" }).1 =
      .response
        { statusCode := 400
          headers := buildCorsHeaders .unset
            (getRequestOrigin
              { httpMethod := "POST", headers := [], body := .malformed })
          body := (errorDoc "INVALID_ARGUMENT"
            "Invalid JSON in request body").render } :=
  ⟨(handler_malformed_body_rejected {}
      { run := fun _ _ => .ok .null,
        stream := fun _ _ => { chunks := [], outcome := .ok .null } }
      { httpMethod := "POST", headers := [], body := .malformed }
      { functionName := "fn", functionVersion := "1",
        invokedFunctionArn := "arn", memoryLimitInMB := "128",
        awsRequestId := "req-1" } rfl).1,
   (handler_malformed_body_rejected {}
      { run := fun _ _ => .ok .null,
        stream := fun _ _ => { chunks := [], outcome := .ok .null } }
      { httpMethod := "POST", headers := [], body := .malformed }
      { functionName := "fn", functionVersion := "1",
        invokedFunctionArn := "arn", memoryLimitInMB := "128",
        awsRequestId := "req-1" } rfl).2 (by decide) rfl⟩

/-- C3 (code-bug evidence): evaluating the buffered handler at a request
whose flow throws.  First conjunct: when the configured `onError` itself
throws, the exception escapes the handler uncaught instead of degrading to
an `Internal`/500 response.  Second conjunct: when `onError` returns, its
status code is used and its message is wrapped in the callable envelope
with status fixed to `INTERNAL`. -/
theorem onError_throwing_escapes_eval :
    handler
        { onError := some (fun _ => .error (.other "handler exploded")) }
        { run := fun _ _ => .error (.other "boom"),
          stream := fun _ _ =>
            { chunks := [], outcome := .error (.other "boom") } }
        { httpMethod := "POST", headers := [],
          body := .wellFormed (.str "in") }
        { functionName := "fn", functionVersion := "1",
          invokedFunctionArn := "arn", memoryLimitInMB := "128",
          awsRequestId := "req-1" } =
      (.escaped (.other "handler exploded"), true) ∧
    handler
        { onError :=
            some (fun _ => .ok { statusCode := 503, message := "custom" }) }
        { run := fun _ _ => .error (.other "boom"),
          stream := fun _ _ =>
            { chunks := [], outcome := .error (.other "boom") } }
        { httpMethod := "POST", headers := [],
          body := .wellFormed (.str "in") }
        { functionName := "fn", functionVersion := "1",
          invokedFunctionArn := "arn", memoryLimitInMB := "128",
          awsRequestId := "req-1" } =
      (.response
        { statusCode := 503
          headers :=
            [("Content-Type", "application/json"),
             ("Access-Control-Allow-Origin", "*"),
             ("Access-Control-Allow-Methods", "POST, OPTIONS"),
             ("Access-Control-Allow-Headers", "Content-Type, Authorization"),
             ("Access-Control-Max-Age", "86400")]
          body :=
            "\x7b\"error\":\x7b\"status\":\"INTERNAL\",\"message\":\"custom\"\x7d\x7d" },
       true) := by
  constructor
  · rfl
  · rfl

/-- C2 (code-bug evidence): evaluating the streaming handler at an SSE
request whose flow yields one chunk and then throws.  After the 200
metadata is committed and the chunk is written, the catch block applies a
second metadata record carrying status 500 and writes the bare JSON error
document — not a `data: ...` SSE event — before closing the stream. -/
theorem streaming_error_after_commit_eval :
    streamingHandler {}
        { run := fun _ _ => .error (.other "boom"),
          stream := fun _ _ =>
            { chunks := [.str "a"], outcome := .error (.other "boom") } }
        { httpMethod := "POST",
          headers := [("accept", "text/event-stream")],
          body := .wellFormed (.obj [("data", .str "in")]) }
        { functionName := "fn", functionVersion := "1",
          invokedFunctionArn := "arn", memoryLimitInMB := "128",
          awsRequestId := "req-1" } =
      ([.metadataOp 200
          [("Content-Type", "text/event-stream"),
           ("Access-Control-Allow-Origin", "*"),
           ("Access-Control-Allow-Methods", "POST, OPTIONS"),
           ("Access-Control-Allow-Headers", "Content-Type, Authorization"),
           ("Access-Control-Max-Age", "86400"),
           ("Cache-Control", "no-cache"),
           ("Connection", "keep-alive")],
        .writeOp "data: \x7b\"message\":\"a\"\x7d\n\n",
        .metadataOp 500
          [("Content-Type", "application/json"),
           ("Access-Control-Allow-Origin", "*"),
           ("Access-Control-Allow-Methods", "POST, OPTIONS"),
           ("Access-Control-Allow-Headers", "Content-Type, Authorization"),
           ("Access-Control-Max-Age", "86400")],
        .writeOp "\x7b\"error\":\x7b\"status\":\"INTERNAL\",\"message\":\"boom\"\x7d\x7d",
        .endOp], none) := by
  rfl

end AwsLambdaAdapter
